import Mathlib

/-! Verification of the mcp-poptoggle bridging layer (src/server.ts): the
pop-ui tool dispatcher, the ui/list resource callback, and the POST /messages
session router. The Surface Store operations readWindow, injectWindow,
describeWindow and listFiles live in main.ts, which is absent from the
sources; they are modelled from the specification, as their doc comments
note. Everything else is transcribed from src/server.ts. -/

namespace PopUI

/-- A JavaScript value as observed by the dispatcher: null, undefined, or a
string. The dispatcher tests for a missing surface with a strict null
comparison, so undefined and null must stay distinct. -/
inductive JSVal where
  | jsNull
  | undef
  | str (s : String)
deriving DecidableEq, Repr

/-- Template-literal interpolation of a JSVal, as used for the text field of
every tool result in server.ts. -/
def jsText : JSVal → String
  | .jsNull => "null"
  | .undef => "undefined"
  | .str s => s

/-- The shared backing store and the live rendering bridge. files is the
uploads directory as an association list from file name to contents (a
directory holds each file name at most once); live is the reported live state
per surface name, where a value of none models a surface whose state is
absent; schemas is the reported state schema per surface name. -/
structure Store where
  files : List (String × String)
  live : List (String × Option String)
  schemas : List (String × String)
deriving DecidableEq, Repr

/-- Insert or overwrite a key in an association list, as writing a file under
a fixed name does in a directory. -/
def setKey {α : Type} : List (String × α) → String → α → List (String × α)
  | [], k, v => [(k, v)]
  | (k₁, v₁) :: rest, k, v =>
      if k₁ = k then (k, v) :: rest else (k₁, v₁) :: setKey rest k v

/-- fs.promises.writeFile of a surface file into the uploads directory
(server.ts line 195). -/
def writeFile (s : Store) (fileName content : String) : Store :=
  { s with files := setKey s.files fileName content }

/-- Modelled from the spec: listFiles (exported by the absent main.ts)
enumerates the file names of the shared uploads directory, which may also
hold foreign files written by the upload endpoints. -/
def listFiles (s : Store) : List String :=
  s.files.map Prod.fst

/-- Modelled from the spec: surface existence is determined by presence of
backing content, the file name.tsx in the uploads directory, not by any
cached flag or by reported live state. -/
def surfaceExists (s : Store) (name : String) : Bool :=
  (List.lookup (name ++ ".tsx") s.files).isSome

/-- Modelled from the spec: readWindow (exported by the absent main.ts)
resolves to null when the surface is absent, and otherwise to its live state,
which is an absent non-null value when the rendering process has not yet
reported one. -/
def readWindow (s : Store) (name : String) : JSVal :=
  if surfaceExists s name then
    match List.lookup name s.live with
    | some (some j) => .str j
    | some none => .undef
    | none => .undef
  else .jsNull

/-- Modelled from the spec: injectWindow (exported by the absent main.ts)
writes the live state of a surface and resolves to the updated live state, or
resolves to null when the surface is absent; it never creates a surface. The
dispatcher passes its raw optional json argument through, so the injected
value may itself be absent. -/
def injectWindow (s : Store) (name : String) (json : Option String) :
    JSVal × Store :=
  if surfaceExists s name then
    (match json with
     | some j => JSVal.str j
     | none => JSVal.undef,
     { s with live := setKey s.live name json })
  else (.jsNull, s)

/-- Modelled from the spec: describeWindow (exported by the absent main.ts)
reads the schema of the live state, or resolves to null when the surface is
absent. -/
def describeWindow (s : Store) (name : String) : JSVal :=
  if surfaceExists s name then
    match List.lookup name s.schemas with
    | some sch => .str sch
    | none => .undef
  else .jsNull

/-- The four recognized operation modes of the pop-ui tool (the zod enum in
server.ts lines 144-150). -/
inductive Mode where
  | Show
  | Get
  | Set
  | Describe
deriving DecidableEq, Repr

/-- The arguments of one pop-ui invocation: name is required, while mode,
json and tsx are optional (server.ts lines 138-173). -/
structure Invocation where
  name : String
  mode : Option Mode
  json : Option String
  tsx : Option String
deriving DecidableEq, Repr

/-- A tool result: the rendered text content plus the isError flag. -/
structure ToolResult where
  text : String
  isError : Bool
deriving DecidableEq, Repr

/-- The observable external actions of one dispatch, in the order they are
performed: persisting a surface file, emitting the list-changed notification,
issuing a live-state injection, and issuing the open/render request. -/
inductive Event where
  | writeFileEv (fileName content : String)
  | notifyListChanged
  | injectEv (name : String) (json : Option String)
  | openFileEv (fileName : String)
deriving DecidableEq, Repr

/-- The not-found failure text of the get, set and describe branches. -/
def notFoundText (name : String) : String :=
  "User interface named \"" ++ name ++ "\" not found."

/-- The validation failure text of the show branch (server.ts line 186). -/
def showValidationText : String :=
  "tsx is required when mode is show and window does not exist."

/-- The catch-all failure text (server.ts line 303); the zod enum admits only
the four modes, so it is reached exactly when mode is omitted, and the
template literal renders the offending value as undefined. -/
def invalidModeText : String :=
  "Invalid mode \"undefined\"."

/-- The pop-ui tool handler (server.ts lines 174-308): from the current
store and one invocation it produces the tool result, the updated store, and
the ordered list of external actions performed. -/
def popUI (s : Store) (inv : Invocation) : ToolResult × Store × List Event :=
  let fileName := inv.name ++ ".tsx"
  match inv.mode with
  | some .Show =>
      let windowState := readWindow s inv.name
      if inv.tsx = none ∧ windowState = .jsNull then
        ({ text := showValidationText, isError := true }, s, [])
      else
        match inv.tsx with
        | some t =>
            ({ text := jsText windowState, isError := false },
              writeFile s fileName t,
              [.writeFileEv fileName t, .notifyListChanged,
               .openFileEv fileName])
        | none =>
            match inv.json with
            | some j =>
                let r := injectWindow s inv.name (some j)
                ({ text := jsText r.1, isError := false }, r.2,
                  [.injectEv inv.name (some j), .openFileEv fileName])
            | none =>
                ({ text := jsText windowState, isError := false }, s,
                  [.openFileEv fileName])
  | some .Set =>
      let r := injectWindow s inv.name inv.json
      if r.1 = .jsNull then
        ({ text := notFoundText inv.name, isError := true }, r.2,
          [.injectEv inv.name inv.json])
      else
        ({ text := jsText r.1, isError := false }, r.2,
          [.injectEv inv.name inv.json])
  | some .Get =>
      let windowState := readWindow s inv.name
      if windowState = .jsNull then
        ({ text := notFoundText inv.name, isError := true }, s, [])
      else
        ({ text := jsText windowState, isError := false }, s, [])
  | some .Describe =>
      let windowState := describeWindow s inv.name
      if windowState = .jsNull then
        ({ text := notFoundText inv.name, isError := true }, s, [])
      else
        ({ text := jsText windowState, isError := false }, s, [])
  | none =>
      ({ text := invalidModeText, isError := true }, s, [])

/-- The suffix of a character list starting at its last dot, when a dot
occurs. -/
def lastDotSuffix : List Char → Option (List Char)
  | [] => none
  | c :: rest =>
      match lastDotSuffix rest with
      | some e => some e
      | none => if c = '.' then some (c :: rest) else none

/-- Node path.extname on a bare file name: the suffix from the last dot,
empty when there is no dot or when the only dot is the leading character. -/
def extname (f : String) : String :=
  match f.data with
  | [] => ""
  | _ :: rest =>
      match lastDotSuffix rest with
      | some e => ⟨e⟩
      | none => ""

/-- Node path.basename with an extension argument: strips the extension when
the name ends with it and is not the extension itself. -/
def basenameStrip (f ext : String) : String :=
  if f ≠ ext ∧ ext.data.isSuffixOf f.data then
    ⟨f.data.take (f.data.length - ext.data.length)⟩
  else f

/-- The ui/list resource callback (server.ts lines 311-328): the names of all
files of extension .tsx in the uploads directory, with the extension
stripped. -/
def uiList (s : Store) : List String :=
  ((listFiles s).filter (fun fileName => extname fileName == ".tsx")).map
    (fun fileName => basenameStrip fileName ".tsx")

/-- One inbound POST /messages request: the optional sessionId field of the
body, the optional x-session-id header, and the optional sessionId query
parameter. -/
structure Request where
  bodySessionId : Option String
  headerSessionId : Option String
  querySessionId : Option String
deriving DecidableEq, Repr

/-- JavaScript truthiness of an optional string field: present and
nonempty. -/
def truthy : Option String → Option String
  | some s => if s = "" then none else some s
  | none => none

/-- Candidate session resolution (server.ts lines 362-376): the body field,
then the header, then the query parameter; the first truthy value wins. -/
def resolveSessionId (r : Request) : Option String :=
  match truthy r.bodySessionId with
  | some sid => some sid
  | none =>
      match truthy r.headerSessionId with
      | some sid => some sid
      | none => truthy r.querySessionId

/-- The outcome of one POST /messages request: the 503 no-active-connections
failure, or delivery of the message to one transport. -/
inductive RouteResult (τ : Type) where
  | noActiveSession
  | delivered (sessionId : String) (transport : τ)
deriving DecidableEq, Repr

/-- The POST /messages handler (server.ts lines 352-397) over the transports
map in insertion order: the no-active-connections failure when the map is
empty; delivery to the resolved session when its id is registered; otherwise
delivery to the first enumerated session. The handler never mutates the
transports map, which is returned alongside the outcome. -/
def handleMessages {τ : Type} (transports : List (String × τ)) (r : Request) :
    RouteResult τ × List (String × τ) :=
  match transports with
  | [] => (.noActiveSession, [])
  | (firstId, firstTransport) :: rest =>
      match resolveSessionId r with
      | some sid =>
          match List.lookup sid ((firstId, firstTransport) :: rest) with
          | some t => (.delivered sid t, (firstId, firstTransport) :: rest)
          | none =>
              (.delivered firstId firstTransport,
                (firstId, firstTransport) :: rest)
      | none =>
          (.delivered firstId firstTransport,
            (firstId, firstTransport) :: rest)

/-- A fresh store: an empty uploads directory and no reported state. -/
def emptyStore : Store :=
  { files := [], live := [], schemas := [] }

/-- A store holding one surface named w whose rendering process has not yet
reported any live state. -/
def storeW : Store :=
  { files := [("w.tsx", "body")], live := [], schemas := [] }

/-! ### Association-list lemmas -/

theorem setKey_lookup_self {α : Type} (l : List (String × α)) (k : String) (v : α) :
    List.lookup k (setKey l k v) = some v := by
  induction l with
  | nil => simp [setKey, List.lookup]
  | cons hd tl ih =>
      obtain ⟨k₁, v₁⟩ := hd
      by_cases h : k₁ = k
      · simp [setKey, h, List.lookup]
      · have hb : (k == k₁) = false := by
          simp [beq_eq_false_iff_ne]
          exact fun hk => h hk.symm
        simp [setKey, h, List.lookup, hb, ih]

theorem setKey_map_fst {α : Type} (l : List (String × α)) (k : String) (v : α) :
    (setKey l k v).map Prod.fst =
      if k ∈ l.map Prod.fst then l.map Prod.fst else l.map Prod.fst ++ [k] := by
  induction l with
  | nil => simp [setKey]
  | cons hd tl ih =>
      obtain ⟨k₁, v₁⟩ := hd
      by_cases h : k₁ = k
      · subst h
        simp [setKey]
      · by_cases hm : k ∈ tl.map Prod.fst
        · simp [setKey, h, ih, hm, Ne.symm h]
        · simp [setKey, h, ih, hm, Ne.symm h]

theorem setKey_nodup {α : Type} {l : List (String × α)} (k : String) (v : α)
    (h : (l.map Prod.fst).Nodup) : ((setKey l k v).map Prod.fst).Nodup := by
  rw [setKey_map_fst]
  by_cases hm : k ∈ l.map Prod.fst
  · simpa [hm] using h
  · simp [hm, List.nodup_append, h]

theorem mem_setKey_self {α : Type} (l : List (String × α)) (k : String) (v : α) :
    k ∈ (setKey l k v).map Prod.fst := by
  rw [setKey_map_fst]
  by_cases hm : k ∈ l.map Prod.fst <;> simp [hm]

theorem lookup_eq_some_of_mem {τ : Type} {l : List (String × τ)} {k : String}
    {t : τ} (hnd : (l.map Prod.fst).Nodup) (hmem : (k, t) ∈ l) :
    List.lookup k l = some t := by
  induction l with
  | nil => simp at hmem
  | cons hd tl ih =>
      obtain ⟨k₁, t₁⟩ := hd
      rw [List.map_cons, List.nodup_cons] at hnd
      rcases List.mem_cons.mp hmem with heq | htl
      · rw [Prod.mk.injEq] at heq
        obtain ⟨rfl, rfl⟩ := heq
        simp [List.lookup]
      · have hkne : (k == k₁) = false := by
          refine beq_eq_false_iff_ne.mpr ?_
          rintro rfl
          exact hnd.1 (List.mem_map.mpr ⟨(k, t), htl, rfl⟩)
        simpa [List.lookup, hkne] using ih hnd.2 htl

/-! ### Surface Store lemmas -/

theorem readWindow_eq_jsNull_iff (s : Store) (n : String) :
    readWindow s n = .jsNull ↔ surfaceExists s n = false := by
  unfold readWindow
  by_cases h : surfaceExists s n
  · simp only [h, if_true]
    cases hl : List.lookup n s.live with
    | none => simp [h]
    | some v => cases v <;> simp [h]
  · simp [h]

theorem injectWindow_not_exists {s : Store} {n : String} (j : Option String)
    (h : surfaceExists s n = false) : injectWindow s n j = (.jsNull, s) := by
  simp [injectWindow, h]

theorem injectWindow_exists {s : Store} {n : String} (j : Option String)
    (h : surfaceExists s n = true) :
    injectWindow s n j =
      ((match j with
        | some x => JSVal.str x
        | none => JSVal.undef),
        { s with live := setKey s.live n j }) := by
  simp [injectWindow, h]

theorem popUI_show_tsx (s : Store) (inv : Invocation) (t : String)
    (hm : inv.mode = some Mode.Show) (ht : inv.tsx = some t) :
    popUI s inv =
      ({ text := jsText (readWindow s inv.name), isError := false },
        writeFile s (inv.name ++ ".tsx") t,
        [.writeFileEv (inv.name ++ ".tsx") t, .notifyListChanged,
         .openFileEv (inv.name ++ ".tsx")]) := by
  simp [popUI, hm, ht]

theorem popUI_set_store (s : Store) (inv : Invocation)
    (hm : inv.mode = some Mode.Set) :
    (popUI s inv).2.1 = (injectWindow s inv.name inv.json).2 := by
  simp only [popUI, hm]
  split <;> rfl

theorem popUI_show_noTsx_json (s : Store) (inv : Invocation) (j : String)
    (hm : inv.mode = some Mode.Show) (ht : inv.tsx = none)
    (hj : inv.json = some j) :
    (popUI s inv).2.1 = (injectWindow s inv.name (some j)).2 := by
  simp only [popUI, hm, ht, hj]
  by_cases hc : readWindow s inv.name = JSVal.jsNull
  · rw [if_pos ⟨trivial, hc⟩]
    have hex : surfaceExists s inv.name = false :=
      (readWindow_eq_jsNull_iff s inv.name).mp hc
    rw [injectWindow_not_exists (some j) hex]
  · rw [if_neg (fun hand => hc hand.2)]

/-! ### Listing lemmas -/

theorem lastDotSuffix_append_tsx (l : List Char) :
    lastDotSuffix (l ++ ['.', 't', 's', 'x']) = some ['.', 't', 's', 'x'] := by
  induction l with
  | nil => rfl
  | cons c l ih => simp [lastDotSuffix, ih]

theorem lastDotSuffix_isSuffix {cs e : List Char}
    (h : lastDotSuffix cs = some e) : e <:+ cs := by
  induction cs with
  | nil => simp [lastDotSuffix] at h
  | cons c rest ih =>
      rw [lastDotSuffix] at h
      cases hr : lastDotSuffix rest with
      | some e₁ =>
          rw [hr] at h
          cases h
          exact (ih hr).trans (List.suffix_cons c rest)
      | none =>
          rw [hr] at h
          by_cases hc : c = '.'
          · rw [if_pos hc] at h
            cases h
            exact List.suffix_refl _
          · rw [if_neg hc] at h
            cases h

theorem extname_data_cons {f : String} {c : Char} {rest : List Char}
    (hd : f.data = c :: rest) :
    extname f =
      match lastDotSuffix rest with
      | some e => ⟨e⟩
      | none => "" := by
  unfold extname
  rw [hd]

theorem extname_append_tsx (n : String) (hn : n ≠ "") :
    extname (n ++ ".tsx") = ".tsx" := by
  obtain ⟨c, cs, hd⟩ : ∃ c cs, n.data = c :: cs := by
    cases hnd : n.data with
    | nil => exact absurd (String.ext (by rw [hnd])) hn
    | cons c cs => exact ⟨c, cs, rfl⟩
  have hdata : (n ++ ".tsx").data = c :: (cs ++ ['.', 't', 's', 'x']) := by
    rw [String.data_append, hd]; rfl
  rw [extname_data_cons hdata, lastDotSuffix_append_tsx]

theorem basenameStrip_append_tsx (n : String) (hn : n ≠ "") :
    basenameStrip (n ++ ".tsx") ".tsx" = n := by
  have hdata : (n ++ ".tsx").data = n.data ++ ['.', 't', 's', 'x'] := by
    rw [String.data_append]
  have hne : n ++ ".tsx" ≠ ".tsx" := by
    intro h
    apply hn
    have hd := congrArg String.data h
    rw [hdata] at hd
    have h4 : (".tsx" : String).data = ['.', 't', 's', 'x'] := rfl
    rw [h4] at hd
    have hnil : n.data = [] :=
      List.append_cancel_right (hd.trans (List.nil_append _).symm)
    exact String.ext (by rw [hnil])
  have hsuf : (".tsx" : String).data.isSuffixOf (n ++ ".tsx").data = true := by
    rw [hdata]
    exact List.isSuffixOf_iff_suffix.mpr (List.suffix_append _ _)
  unfold basenameStrip
  rw [if_pos ⟨hne, hsuf⟩, hdata]
  have hlen : (n.data ++ ['.', 't', 's', 'x']).length - (".tsx" : String).data.length
      = n.data.length := by
    simp
  rw [hlen]
  rw [List.take_left]

theorem extname_tsx_structure {f : String} (h : extname f = ".tsx") :
    ∃ n : String, n ≠ "" ∧ f = n ++ ".tsx" := by
  cases hd : f.data with
  | nil =>
      unfold extname at h
      rw [hd] at h
      exact absurd h (by decide)
  | cons c rest =>
      rw [extname_data_cons hd] at h
      cases hls : lastDotSuffix rest with
      | none =>
          rw [hls] at h
          exact absurd h (by decide)
      | some e =>
          rw [hls] at h
          have he : e = ['.', 't', 's', 'x'] := congrArg String.data h
          subst he
          obtain ⟨pre, hpre⟩ := lastDotSuffix_isSuffix hls
          refine ⟨⟨c :: pre⟩, ?_, ?_⟩
          · intro habs
            have := congrArg String.data habs
            simp at this
          · apply String.ext
            rw [String.data_append, hd, ← hpre]
            rfl

theorem listing_pred_iff (f n : String) (hn : n ≠ "") :
    ((basenameStrip f ".tsx" == n) && (extname f == ".tsx")) = true ↔
      f = n ++ ".tsx" := by
  rw [Bool.and_eq_true, beq_iff_eq, beq_iff_eq]
  constructor
  · rintro ⟨hb, hext⟩
    obtain ⟨m, hm, rfl⟩ := extname_tsx_structure hext
    rw [basenameStrip_append_tsx m hm] at hb
    rw [hb]
  · rintro rfl
    exact ⟨basenameStrip_append_tsx n hn, extname_append_tsx n hn⟩

theorem count_uiList (s : Store) (n : String) (hn : n ≠ "") :
    List.count n (uiList s) =
      List.count (n ++ ".tsx") (s.files.map Prod.fst) := by
  unfold uiList listFiles
  rw [List.count, List.count, List.countP_map, List.countP_filter]
  apply List.countP_congr
  intro f _
  have := listing_pred_iff f n hn
  constructor
  · intro h
    have hf : f = n ++ ".tsx" := this.mp h
    simp [hf]
  · intro h
    rw [beq_iff_eq] at h
    exact this.mpr h

/-! ### Claim theorems -/

/-- C1 counterexample: a show invocation of the fresh name w supplying both
content-to-render and a state-to-inject persists the content but does not
apply the supplied state: the live state of w stays unset, because the
injection call sits in the else-branch of the content check. -/
theorem C1_show_ignores_json_cex :
    List.lookup "w.tsx"
      ((popUI emptyStore ⟨"w", some Mode.Show, some "1", some "B"⟩).2.1).files
      = some "B" ∧
    List.lookup "w"
      ((popUI emptyStore ⟨"w", some Mode.Show, some "1", some "B"⟩).2.1).live
      = none := by
  decide

/-- C1 (amended): on a show invocation that supplies content-to-render, the
dispatcher ignores any supplied state-to-inject and leaves every live state
unchanged; the state-to-inject is applied, exactly as a set would apply it,
only when content-to-render is absent. -/
theorem C1_show_content_ignores_state (s : Store) (inv : Invocation)
    (hm : inv.mode = some Mode.Show) :
    (∀ t, inv.tsx = some t → ((popUI s inv).2.1).live = s.live) ∧
    (∀ j, inv.tsx = none → inv.json = some j →
      (popUI s inv).2.1 =
        (popUI s { inv with mode := some Mode.Set }).2.1) := by
  constructor
  · intro t ht
    rw [popUI_show_tsx s inv t hm ht]
    rfl
  · intro j ht hj
    rw [popUI_show_noTsx_json s inv j hm ht hj,
      popUI_set_store s { inv with mode := some Mode.Set } rfl]
    rw [hj]

/-- C1 witness: the amended theorem at a concrete show invocation carrying
both content and state. -/
theorem C1_show_content_ignores_state_witness :
    (Invocation.mk "w" (some Mode.Show) (some "1") (some "B")).mode
        = some Mode.Show ∧
    ((popUI storeW
        (Invocation.mk "w" (some Mode.Show) (some "1") (some "B"))).2.1).live
        = storeW.live :=
  ⟨rfl, (C1_show_content_ignores_state storeW _ rfl).1 "B" rfl⟩

/-- C2 counterexample: a concrete show invocation supplying both content and
state performs persist, notification and open-request in that order but
issues no state injection at all; in particular injection does not happen
after the open-request was issued, contrary to the claim. -/
theorem C2_no_injection_after_open_cex :
    (popUI emptyStore ⟨"w", some Mode.Show, some "1", some "B"⟩).2.2 =
      [Event.writeFileEv "w.tsx" "B", Event.notifyListChanged,
       Event.openFileEv "w.tsx"] ∧
    Event.injectEv "w" (some "1") ∉
      (popUI emptyStore ⟨"w", some Mode.Show, some "1", some "B"⟩).2.2 := by
  decide

/-- C2 (amended): on every show invocation that supplies content-to-render,
the dispatcher first persists the content, then emits the list-changed
notification, then issues the open-request, and never injects a
state-to-inject on such an invocation. -/
theorem C2_show_event_order (s : Store) (inv : Invocation) (t : String)
    (hm : inv.mode = some Mode.Show) (ht : inv.tsx = some t) :
    (popUI s inv).2.2 =
      [Event.writeFileEv (inv.name ++ ".tsx") t, Event.notifyListChanged,
       Event.openFileEv (inv.name ++ ".tsx")] := by
  rw [popUI_show_tsx s inv t hm ht]

/-- C2 witness: the amended ordering theorem at a concrete show invocation
supplying content and state. -/
theorem C2_show_event_order_witness :
    (Invocation.mk "w" (some Mode.Show) (some "1") (some "B")).mode
        = some Mode.Show ∧
    (Invocation.mk "w" (some Mode.Show) (some "1") (some "B")).tsx
        = some "B" ∧
    (popUI emptyStore
        (Invocation.mk "w" (some Mode.Show) (some "1") (some "B"))).2.2 =
      [Event.writeFileEv ("w" ++ ".tsx") "B", Event.notifyListChanged,
       Event.openFileEv ("w" ++ ".tsx")] :=
  ⟨rfl, rfl, C2_show_event_order emptyStore _ "B" rfl rfl⟩

/-- C3: after a show of name n that supplies content C, a subsequent get of
n succeeds (it is not the not-found failure), even though no live state has
been reported for n: existence is decided by the persisted backing
content. -/
theorem C3_show_then_get (s : Store) (n C : String) (j : Option String) :
    (popUI ((popUI s ⟨n, some Mode.Show, j, some C⟩).2.1)
      ⟨n, some Mode.Get, none, none⟩).1.isError = false := by
  have h1 : (popUI s ⟨n, some Mode.Show, j, some C⟩).2.1
      = writeFile s (n ++ ".tsx") C := by
    rw [popUI_show_tsx s _ C rfl rfl]
  rw [h1]
  have hex : surfaceExists (writeFile s (n ++ ".tsx") C) n = true := by
    unfold surfaceExists writeFile
    simp [setKey_lookup_self]
  have hrw : readWindow (writeFile s (n ++ ".tsx") C) n ≠ JSVal.jsNull := by
    rw [Ne, readWindow_eq_jsNull_iff, hex]
    decide
  simp [popUI, hrw]

/-- C4: a show invocation fails (with the validation failure result) exactly
when the surface is absent and no content-to-render was supplied, and in
that case it returns the validation text, leaves the store unchanged, and
performs no external action: nothing is persisted and no open-request is
issued. -/
theorem C4_show_validation (s : Store) (inv : Invocation)
    (hm : inv.mode = some Mode.Show) :
    ((popUI s inv).1.isError = true ↔
      (inv.tsx = none ∧ surfaceExists s inv.name = false)) ∧
    ((popUI s inv).1.isError = true →
      (popUI s inv).1.text = showValidationText ∧
      (popUI s inv).2.1 = s ∧ (popUI s inv).2.2 = []) := by
  by_cases hc : inv.tsx = none ∧ readWindow s inv.name = JSVal.jsNull
  · have hres : popUI s inv =
        ({ text := showValidationText, isError := true }, s, []) := by
      simp only [popUI, hm]
      rw [if_pos hc]
    rw [hres]
    refine ⟨?_, fun _ => ⟨rfl, rfl, rfl⟩⟩
    constructor
    · intro _
      exact ⟨hc.1, (readWindow_eq_jsNull_iff s inv.name).mp hc.2⟩
    · intro _
      rfl
  · have hfalse : (popUI s inv).1.isError = false := by
      simp only [popUI, hm]
      rw [if_neg hc]
      cases ht : inv.tsx with
      | some t => rfl
      | none => cases hj : inv.json <;> rfl
    refine ⟨?_, ?_⟩
    · constructor
      · intro h
        rw [hfalse] at h
        exact absurd h (by decide)
      · rintro ⟨h1, h2⟩
        exact absurd ⟨h1, (readWindow_eq_jsNull_iff s inv.name).mpr h2⟩ hc
    · intro h
      rw [hfalse] at h
      exact absurd h (by decide)

/-- C4 witness: the exactness theorem at a concrete first-time show with no
content, where the validation failure fires. -/
theorem C4_show_validation_witness :
    (Invocation.mk "w" (some Mode.Show) none none).mode = some Mode.Show ∧
    (((popUI emptyStore (Invocation.mk "w" (some Mode.Show) none none)).1.isError
          = true ↔
        ((Invocation.mk "w" (some Mode.Show) none none).tsx = none ∧
          surfaceExists emptyStore
            (Invocation.mk "w" (some Mode.Show) none none).name = false)) ∧
      ((popUI emptyStore (Invocation.mk "w" (some Mode.Show) none none)).1.isError
          = true →
        (popUI emptyStore (Invocation.mk "w" (some Mode.Show) none none)).1.text
          = showValidationText ∧
        (popUI emptyStore (Invocation.mk "w" (some Mode.Show) none none)).2.1
          = emptyStore ∧
        (popUI emptyStore (Invocation.mk "w" (some Mode.Show) none none)).2.2
          = [])) :=
  ⟨rfl, C4_show_validation emptyStore _ rfl⟩

/-- C5: set, get and describe against a non-existent name each return the
not-found failure and leave the store unchanged, never creating the surface;
a get performed after the failed set therefore still fails. -/
theorem C5_missing_surface (s : Store) (n j : String)
    (h : surfaceExists s n = false) :
    (popUI s ⟨n, some Mode.Set, some j, none⟩).1 = ⟨notFoundText n, true⟩ ∧
    (popUI s ⟨n, some Mode.Set, some j, none⟩).2.1 = s ∧
    (popUI s ⟨n, some Mode.Get, none, none⟩).1 = ⟨notFoundText n, true⟩ ∧
    (popUI s ⟨n, some Mode.Get, none, none⟩).2.1 = s ∧
    (popUI s ⟨n, some Mode.Describe, none, none⟩).1 = ⟨notFoundText n, true⟩ ∧
    (popUI s ⟨n, some Mode.Describe, none, none⟩).2.1 = s ∧
    (popUI ((popUI s ⟨n, some Mode.Set, some j, none⟩).2.1)
      ⟨n, some Mode.Get, none, none⟩).1.isError = true := by
  have hi := injectWindow_not_exists (s := s) (n := n) (some j) h
  have hr : readWindow s n = JSVal.jsNull :=
    (readWindow_eq_jsNull_iff s n).mpr h
  have hd : describeWindow s n = JSVal.jsNull := by
    simp [describeWindow, h]
  have hset : popUI s ⟨n, some Mode.Set, some j, none⟩ =
      (⟨notFoundText n, true⟩, s, [Event.injectEv n (some j)]) := by
    simp [popUI, hi]
  have hget : popUI s ⟨n, some Mode.Get, none, none⟩ =
      (⟨notFoundText n, true⟩, s, []) := by
    simp [popUI, hr]
  have hdes : popUI s ⟨n, some Mode.Describe, none, none⟩ =
      (⟨notFoundText n, true⟩, s, []) := by
    simp [popUI, hd]
  refine ⟨by rw [hset], by rw [hset], by rw [hget], by rw [hget],
    by rw [hdes], by rw [hdes], ?_⟩
  simp [hset, hget]

/-- C5 witness: the not-found theorem at a concrete never-shown name over
the fresh store. -/
theorem C5_missing_surface_witness :
    surfaceExists emptyStore "w" = false ∧
    ((popUI emptyStore ⟨"w", some Mode.Set, some "1", none⟩).1
        = ⟨notFoundText "w", true⟩ ∧
      (popUI emptyStore ⟨"w", some Mode.Set, some "1", none⟩).2.1
        = emptyStore ∧
      (popUI emptyStore ⟨"w", some Mode.Get, none, none⟩).1
        = ⟨notFoundText "w", true⟩ ∧
      (popUI emptyStore ⟨"w", some Mode.Get, none, none⟩).2.1 = emptyStore ∧
      (popUI emptyStore ⟨"w", some Mode.Describe, none, none⟩).1
        = ⟨notFoundText "w", true⟩ ∧
      (popUI emptyStore ⟨"w", some Mode.Describe, none, none⟩).2.1
        = emptyStore ∧
      (popUI ((popUI emptyStore ⟨"w", some Mode.Set, some "1", none⟩).2.1)
        ⟨"w", some Mode.Get, none, none⟩).1.isError = true) :=
  ⟨by decide, C5_missing_surface emptyStore "w" "1" (by decide)⟩

/-- C6 counterexample: for the empty name, two successive shows persist the
content under the file named .tsx, but that file has no recognized extension,
so the empty name appears zero times, not once, in the resource listing,
even though the backing content is the second write. -/
theorem C6_empty_name_cex :
    List.lookup ".tsx"
      ((popUI ((popUI emptyStore ⟨"", some Mode.Show, none, some "A"⟩).2.1)
        ⟨"", some Mode.Show, none, some "B"⟩).2.1).files = some "B" ∧
    List.count ""
      (uiList ((popUI ((popUI emptyStore ⟨"", some Mode.Show, none, some "A"⟩).2.1)
        ⟨"", some Mode.Show, none, some "B"⟩).2.1)) = 0 := by
  decide

/-- C6 (amended): for every nonempty name n, over a store whose directory
holds each file name at most once, show(n, C1) followed by show(n, C2)
leaves the backing content of n exactly C2, and n appears exactly once in
the resource listing; the empty name is the one exception, since its backing
file .tsx has no recognized extension and is dropped from the listing. -/
theorem C6_last_write_wins (s : Store) (n C₁ C₂ : String) (hn : n ≠ "")
    (hnd : (s.files.map Prod.fst).Nodup) :
    List.lookup (n ++ ".tsx")
      ((popUI ((popUI s ⟨n, some Mode.Show, none, some C₁⟩).2.1)
        ⟨n, some Mode.Show, none, some C₂⟩).2.1).files = some C₂ ∧
    List.count n
      (uiList ((popUI ((popUI s ⟨n, some Mode.Show, none, some C₁⟩).2.1)
        ⟨n, some Mode.Show, none, some C₂⟩).2.1)) = 1 := by
  have h1 : (popUI s ⟨n, some Mode.Show, none, some C₁⟩).2.1
      = writeFile s (n ++ ".tsx") C₁ := by
    rw [popUI_show_tsx s _ C₁ rfl rfl]
  rw [h1]
  have h2 : (popUI (writeFile s (n ++ ".tsx") C₁)
        ⟨n, some Mode.Show, none, some C₂⟩).2.1
      = writeFile (writeFile s (n ++ ".tsx") C₁) (n ++ ".tsx") C₂ := by
    rw [popUI_show_tsx _ _ C₂ rfl rfl]
  rw [h2]
  constructor
  · simp only [writeFile]
    exact setKey_lookup_self _ _ _
  · rw [count_uiList _ n hn]
    have hnd2 : (((writeFile (writeFile s (n ++ ".tsx") C₁) (n ++ ".tsx")
        C₂).files).map Prod.fst).Nodup := by
      simp only [writeFile]
      exact setKey_nodup _ _ (setKey_nodup _ _ hnd)
    have hmem : (n ++ ".tsx") ∈ ((writeFile (writeFile s (n ++ ".tsx") C₁)
        (n ++ ".tsx") C₂).files).map Prod.fst := by
      simp only [writeFile]
      exact mem_setKey_self _ _ _
    exact List.count_eq_one_of_mem hnd2 hmem

/-- C6 witness: the amended theorem at a concrete nonempty name over the
fresh store. -/
theorem C6_last_write_wins_witness :
    ("w" : String) ≠ "" ∧
    (emptyStore.files.map Prod.fst).Nodup ∧
    (List.lookup ("w" ++ ".tsx")
        ((popUI ((popUI emptyStore ⟨"w", some Mode.Show, none, some "A"⟩).2.1)
          ⟨"w", some Mode.Show, none, some "B"⟩).2.1).files = some "B" ∧
      List.count "w"
        (uiList ((popUI ((popUI emptyStore
            ⟨"w", some Mode.Show, none, some "A"⟩).2.1)
          ⟨"w", some Mode.Show, none, some "B"⟩).2.1)) = 1) :=
  ⟨by decide, by simp [emptyStore],
    C6_last_write_wins emptyStore "w" "A" "B" (by decide)
      (by simp [emptyStore])⟩

/-- C7: when sessions A and B are both registered with distinct identities
and the resolved candidate identity of a request (body field, then header,
then query parameter) names B, the message is delivered to the transport of
B and never to that of A. -/
theorem C7_route_explicit (τ : Type) (ts : List (String × τ)) (r : Request)
    (idA idB : String) (tA tB : τ)
    (hA : (idA, tA) ∈ ts) (hB : (idB, tB) ∈ ts)
    (hnd : (ts.map Prod.fst).Nodup) (hres : resolveSessionId r = some idB)
    (hAB : idA ≠ idB) :
    (handleMessages ts r).1 = RouteResult.delivered idB tB ∧
    ∀ t, (handleMessages ts r).1 ≠ RouteResult.delivered idA t := by
  have hlook : List.lookup idB ts = some tB := lookup_eq_some_of_mem hnd hB
  have hmain : (handleMessages ts r).1 = RouteResult.delivered idB tB := by
    cases ts with
    | nil => simp at hB
    | cons hd rest =>
        obtain ⟨i₀, t₀⟩ := hd
        simp only [handleMessages, hres]
        rw [hlook]
  refine ⟨hmain, ?_⟩
  intro t hcontra
  rw [hmain] at hcontra
  injection hcontra with h1 h2
  exact hAB h1.symm

/-- C7 witness: the routing theorem at a concrete registry of two sessions
and a request naming the second via the header. -/
theorem C7_route_explicit_witness :
    (("a", (0 : Nat)) ∈ [("a", (0 : Nat)), ("b", 1)]) ∧
    (("b", (1 : Nat)) ∈ [("a", (0 : Nat)), ("b", 1)]) ∧
    ([("a", (0 : Nat)), ("b", 1)].map Prod.fst).Nodup ∧
    resolveSessionId ⟨none, some "b", none⟩ = some "b" ∧
    ("a" : String) ≠ "b" ∧
    (handleMessages [("a", (0 : Nat)), ("b", 1)]
        ⟨none, some "b", none⟩).1 = RouteResult.delivered "b" 1 :=
  ⟨by decide, by decide, by decide, rfl, by decide,
    (C7_route_explicit Nat [("a", (0 : Nat)), ("b", 1)]
      ⟨none, some "b", none⟩ "a" "b" 0 1 (by decide) (by decide) (by decide)
      rfl (by decide)).1⟩

/-- C8: a message submitted while zero sessions are open yields the
distinguishable no-active-session outcome (a total, defined response, never
an unhandled exception), and for every registry state the handler leaves the
transports map unchanged. -/
theorem C8_no_active_session (τ : Type) (r : Request) :
    handleMessages ([] : List (String × τ)) r =
      (RouteResult.noActiveSession, []) ∧
    ∀ ts : List (String × τ), (handleMessages ts r).2 = ts := by
  refine ⟨rfl, ?_⟩
  intro ts
  cases ts with
  | nil => rfl
  | cons hd rest =>
      obtain ⟨i₀, t₀⟩ := hd
      cases hres : resolveSessionId r with
      | none => simp [handleMessages, hres]
      | some sid =>
          cases hl : List.lookup sid ((i₀, t₀) :: rest) with
          | none => simp [handleMessages, hres, hl]
          | some t => simp [handleMessages, hres, hl]

/-- C9 counterexample: a set invocation on the existing surface w with the
state-to-inject omitted is not rejected with a validation failure: the
dispatcher issues the live-state write carrying the absent value and
reports success, returning the interpolated absent value as text. -/
theorem C9_set_missing_json_cex :
    (popUI storeW ⟨"w", some Mode.Set, none, none⟩).1 =
      ⟨"undefined", false⟩ ∧
    (popUI storeW ⟨"w", some Mode.Set, none, none⟩).2.2 =
      [Event.injectEv "w" none] := by
  decide

/-- C9 (amended): the set branch never validates the state-to-inject: with
the argument omitted it unconditionally issues the live-state write carrying
the absent value; it fails only with the not-found result when the surface
is absent, and otherwise succeeds, reporting the injected absent value. -/
theorem C9_set_missing_json (s : Store) (inv : Invocation)
    (hm : inv.mode = some Mode.Set) (hj : inv.json = none) :
    (popUI s inv).2.2 = [Event.injectEv inv.name none] ∧
    ((popUI s inv).1.isError = true ↔ surfaceExists s inv.name = false) ∧
    (surfaceExists s inv.name = true →
      (popUI s inv).1 = ⟨"undefined", false⟩) := by
  by_cases hex : surfaceExists s inv.name = true
  · have hi := injectWindow_exists (s := s) (n := inv.name) none hex
    have hres : popUI s inv =
        (⟨"undefined", false⟩,
          { s with live := setKey s.live inv.name none },
          [Event.injectEv inv.name none]) := by
      simp [popUI, hm, hj, hi, jsText]
    rw [hres]
    refine ⟨rfl, ?_, fun _ => rfl⟩
    simp [hex]
  · have hb : surfaceExists s inv.name = false := by
      cases hsb : surfaceExists s inv.name
      · rfl
      · exact absurd hsb hex
    have hi := injectWindow_not_exists (s := s) (n := inv.name) none hb
    have hres : popUI s inv =
        (⟨notFoundText inv.name, true⟩, s, [Event.injectEv inv.name none]) := by
      simp [popUI, hm, hj, hi]
    rw [hres]
    refine ⟨rfl, ?_, ?_⟩
    · simp [hb]
    · intro hcontra
      rw [hb] at hcontra
      exact absurd hcontra (by decide)

/-- C9 witness: the amended theorem at a concrete set invocation with the
state argument omitted, over the store holding w. -/
theorem C9_set_missing_json_witness :
    (Invocation.mk "w" (some Mode.Set) none none).mode = some Mode.Set ∧
    (Invocation.mk "w" (some Mode.Set) none none).json = none ∧
    ((popUI storeW (Invocation.mk "w" (some Mode.Set) none none)).2.2 =
        [Event.injectEv "w" none] ∧
      ((popUI storeW (Invocation.mk "w" (some Mode.Set) none none)).1.isError
          = true ↔ surfaceExists storeW "w" = false) ∧
      (surfaceExists storeW "w" = true →
        (popUI storeW (Invocation.mk "w" (some Mode.Set) none none)).1 =
          ⟨"undefined", false⟩)) :=
  ⟨rfl, rfl, C9_set_missing_json storeW _ rfl rfl⟩

/-- C10: a show invocation that supplies content returns as its result text
the live state read from the store before the new content was persisted and
before the open-request was issued; a first-time show of a new name
therefore reports the pre-creation null state as text. -/
theorem C10_show_reports_prior_state (s : Store) (inv : Invocation)
    (t : String) (hm : inv.mode = some Mode.Show) (ht : inv.tsx = some t) :
    (popUI s inv).1.text = jsText (readWindow s inv.name) ∧
    (surfaceExists s inv.name = false → (popUI s inv).1.text = "null") := by
  rw [popUI_show_tsx s inv t hm ht]
  refine ⟨rfl, ?_⟩
  intro h
  have hnull : readWindow s inv.name = JSVal.jsNull :=
    (readWindow_eq_jsNull_iff s inv.name).mpr h
  show jsText (readWindow s inv.name) = "null"
  rw [hnull]
  rfl

/-- C10 witness: the prior-state theorem at a concrete first-time show of a
new name over the fresh store. -/
theorem C10_show_reports_prior_state_witness :
    (Invocation.mk "w" (some Mode.Show) none (some "B")).mode
        = some Mode.Show ∧
    (Invocation.mk "w" (some Mode.Show) none (some "B")).tsx = some "B" ∧
    ((popUI emptyStore
          (Invocation.mk "w" (some Mode.Show) none (some "B"))).1.text =
        jsText (readWindow emptyStore "w") ∧
      (surfaceExists emptyStore "w" = false →
        (popUI emptyStore
          (Invocation.mk "w" (some Mode.Show) none (some "B"))).1.text =
          "null")) :=
  ⟨rfl, rfl, C10_show_reports_prior_state emptyStore _ "B" rfl rfl⟩

end PopUI
